import Mathlib

/-!
Shallow embedding of a small books CRUD service: a SQLite-backed storage
layer (database.py), a pydantic validation layer (models.py) and FastAPI
request handlers (main.py). The store is modelled as the list of rows of
the books table in rowid order together with the AUTOINCREMENT sequence
counter; each storage call carries a health value describing whether the
connection opens and the SQL executes.
-/

/-- Environment of one storage call: ok means get_db_connection returns a
connection and the SQL statement executes; connFail models
get_db_connection returning None; sqlFail models an exception raised
while executing the SQL statement. -/
inductive Health
  | ok
  | connFail
  | sqlFail
deriving DecidableEq

/-- One persisted row of the books table. The schema created by
get_db_connection makes title, author and price NOT NULL, the other
descriptive fields nullable, and created_at filled by the store default
CURRENT_TIMESTAMP. -/
structure Row where
  id : Int
  title : String
  author : String
  publisher : Option String
  price : Int
  publish_date : Option String
  isbn : Option String
  cover_url : Option String
  created_at : String
deriving DecidableEq

/-- The state of the single-file store bokelai.db: the rows of the books
table in rowid order, and the AUTOINCREMENT sequence value kept by SQLite
for the books table. -/
structure DB where
  rows : List Row
  seq : Int
deriving DecidableEq

/-- A freshly bootstrapped store (the table just created, sequence 0). -/
def emptyDB : DB := ⟨[], 0⟩

/-- Largest rowid currently present in the table, 0 for an empty table;
SQLite AUTOINCREMENT assigns one more than the larger of this and the
sequence value. -/
def maxId (rows : List Row) : Int :=
  rows.foldr (fun r m => max r.id m) 0

/-- SQLite semantics of SELECT * FROM books LIMIT ? OFFSET ?: a negative
OFFSET behaves like 0, a negative LIMIT means no upper bound, and a
non-negative LIMIT n returns the first n rows after the offset, so
LIMIT 0 returns no rows. -/
def sqlLimitOffset (limit skip : Int) (rows : List Row) : List Row :=
  let afterSkip := rows.drop skip.toNat
  if limit < 0 then afterSkip else afterSkip.take limit.toNat

/-- database.get_all_books: runs SELECT * FROM books LIMIT ? OFFSET ? and
returns the rows as dicts; returns the empty list when the connection
cannot be established or the query raises. -/
def get_all_books (h : Health) (skip limit : Int) (db : DB) : List Row :=
  match h with
  | .connFail => []
  | .sqlFail => []
  | .ok => sqlLimitOffset limit skip db.rows

/-- database.get_book_by_id: SELECT * FROM books WHERE id = ?, returning
the single matching row or None; None also on connection or query
failure. -/
def get_book_by_id (h : Health) (book_id : Int) (db : DB) : Option Row :=
  match h with
  | .connFail => none
  | .sqlFail => none
  | .ok => db.rows.find? (fun r => decide (r.id = book_id))

/-- models.BookCreate after pydantic validation: every field optional
except price. -/
structure BookCreate where
  title : Option String
  author : Option String
  publisher : Option String
  price : Int
  publish_date : Option String
  isbn : Option String
  cover_url : Option String
deriving DecidableEq

/-- A request body before validation: price may be absent. -/
structure RawPayload where
  title : Option String
  author : Option String
  publisher : Option String
  price : Option Int
  publish_date : Option String
  isbn : Option String
  cover_url : Option String
deriving DecidableEq

/-- pydantic validation of models.BookCreate: price is required
(Field(..., gt=0)) and must be strictly positive; every other field
defaults to None and is unconstrained. -/
def validate_book_create (p : RawPayload) : Option BookCreate :=
  match p.price with
  | none => none
  | some v =>
    if 0 < v then
      some ⟨p.title, p.author, p.publisher, v, p.publish_date, p.isbn, p.cover_url⟩
    else
      none

/-- The RawPayload whose validation yields the given BookCreate. -/
def rawOf (b : BookCreate) : RawPayload :=
  ⟨b.title, b.author, b.publisher, some b.price, b.publish_date, b.isbn, b.cover_url⟩

/-- database.create_book: INSERT INTO books (...) VALUES (...). A None
title or author violates the NOT NULL constraint, the insert raises and
-1 is returned with the store unchanged; otherwise the row is appended
with the AUTOINCREMENT id (one more than the larger of the sequence value
and the largest rowid), created_at is filled with the current store
timestamp, and the new id is returned. Returns -1 also on connection or
execution failure. -/
def create_book (h : Health) (b : BookCreate) (now : String) (db : DB) : Int × DB :=
  match h with
  | .connFail => (-1, db)
  | .sqlFail => (-1, db)
  | .ok =>
    match b.title, b.author with
    | some t, some a =>
      let newId := max db.seq (maxId db.rows) + 1
      let row : Row :=
        ⟨newId, t, a, b.publisher, b.price, b.publish_date, b.isbn, b.cover_url, now⟩
      (newId, ⟨db.rows ++ [row], newId⟩)
    | _, _ => (-1, db)

/-- database.update_book: UPDATE books SET (all seven mutable fields)
WHERE id = ?. When no row matches, rowcount is 0 and False is returned;
when a row matches but title or author is None, the NOT NULL constraint
makes the statement raise, the change is rolled back and False is
returned; otherwise every matching row is replaced wholesale (created_at
untouched) and True is returned. False also on connection or execution
failure. -/
def update_book (h : Health) (book_id : Int) (b : BookCreate) (db : DB) : Bool × DB :=
  match h with
  | .connFail => (false, db)
  | .sqlFail => (false, db)
  | .ok =>
    if (db.rows.find? (fun r => decide (r.id = book_id))).isSome then
      match b.title, b.author with
      | some t, some a =>
        (true,
         ⟨db.rows.map (fun r =>
            if r.id = book_id then
              ⟨r.id, t, a, b.publisher, b.price, b.publish_date, b.isbn, b.cover_url,
               r.created_at⟩
            else r),
          db.seq⟩)
      | _, _ => (false, db)
    else (false, db)

/-- database.delete_book: DELETE FROM books WHERE id = ?; True when at
least one row was removed, False when none matched or on connection or
execution failure. -/
def delete_book (h : Health) (book_id : Int) (db : DB) : Bool × DB :=
  match h with
  | .connFail => (false, db)
  | .sqlFail => (false, db)
  | .ok =>
    if (db.rows.find? (fun r => decide (r.id = book_id))).isSome then
      (true, ⟨db.rows.filter (fun r => decide (r.id ≠ book_id)), db.seq⟩)
    else (false, db)

/-- The declared default of the skip query parameter of GET /books. -/
def get_books_default_skip : Int := 0

/-- The declared default of the limit query parameter of GET /books. -/
def get_books_default_limit : Int := 0

/-- main.get_books, the GET /books handler: passes skip and limit through
to the storage layer unmodified. -/
def get_books_api (h : Health) (skip limit : Int) (db : DB) : List Row :=
  get_all_books h skip limit db

/-- main.get_book, the GET /books/{id} handler: 404 when absent. -/
def get_book_api (h : Health) (book_id : Int) (db : DB) : Except Nat Row :=
  match get_book_by_id h book_id db with
  | none => Except.error 404
  | some b => Except.ok b

/-- main.create_book, the POST /books handler: framework validation of the
body first (422 without touching storage), then the storage insert (400 on
the -1 sentinel), then a re-fetch of the new row. -/
def create_book_api (h : Health) (p : RawPayload) (now : String) (db : DB) :
    Except Nat (Option Row) × DB :=
  match validate_book_create p with
  | none => (Except.error 422, db)
  | some b =>
    let res := create_book h b now db
    if res.1 = -1 then (Except.error 400, res.2)
    else (Except.ok (get_book_by_id h res.1 res.2), res.2)

/-- main.update_book, the PUT /books/{id} handler: framework validation of
the body first (422 without touching storage), then the storage update;
404 when it reports failure, otherwise a re-fetch of the row. -/
def update_book_api (h : Health) (book_id : Int) (p : RawPayload) (db : DB) :
    Except Nat (Option Row) × DB :=
  match validate_book_create p with
  | none => (Except.error 422, db)
  | some b =>
    let res := update_book h book_id b db
    if res.1 then (Except.ok (get_book_by_id h book_id res.2), res.2)
    else (Except.error 404, res.2)

/-- main.delete_book, the DELETE /books/{id} handler: 204 on success, 404
when the storage layer reports failure. -/
def delete_book_api (h : Health) (book_id : Int) (db : DB) : Except Nat Unit × DB :=
  let res := delete_book h book_id db
  if res.1 then (Except.ok (), res.2) else (Except.error 404, res.2)

/-- One storage operation of a lifetime of the store, with the health of
its call. -/
inductive Op
  | listOp (h : Health) (skip limit : Int)
  | getOp (h : Health) (book_id : Int)
  | createOp (h : Health) (b : BookCreate) (now : String)
  | updateOp (h : Health) (book_id : Int) (b : BookCreate)
  | deleteOp (h : Health) (book_id : Int)

/-- Run a sequence of operations against the store, collecting in order
the ids returned by the successful creates (those not returning -1). -/
def runOps : DB → List Op → DB × List Int
  | db, [] => (db, [])
  | db, op :: ops =>
    match op with
    | .listOp _ _ _ => runOps db ops
    | .getOp _ _ => runOps db ops
    | .createOp h b now =>
      let res := create_book h b now db
      let rest := runOps res.2 ops
      if res.1 = -1 then rest else (rest.1, res.1 :: rest.2)
    | .updateOp h i b => runOps (update_book h i b db).2 ops
    | .deleteOp h i => runOps (delete_book h i db).2 ops

/-- A concrete stored row used in concrete instantiations. -/
def sampleRow : Row :=
  ⟨1, "A", "B", none, 100, none, none, none, "2024-01-01 00:00:00"⟩

/-- A store holding exactly one row. -/
def sampleDB : DB := ⟨[sampleRow], 1⟩

/-- A store holding five rows in insertion order, for concrete
pagination checks. -/
def db5 : DB :=
  ⟨[⟨1, "T1", "A1", none, 10, none, none, none, "ts"⟩,
    ⟨2, "T2", "A2", none, 10, none, none, none, "ts"⟩,
    ⟨3, "T3", "A3", none, 10, none, none, none, "ts"⟩,
    ⟨4, "T4", "A4", none, 10, none, none, none, "ts"⟩,
    ⟨5, "T5", "A5", none, 10, none, none, none, "ts"⟩], 5⟩

lemma maxId_nonneg (rows : List Row) : 0 ≤ maxId rows := by
  induction rows with
  | nil => simp [maxId]
  | cons r rs ih =>
    simp only [maxId, List.foldr_cons] at ih ⊢
    exact le_max_of_le_right ih

lemma le_maxId {r : Row} {rows : List Row} (h : r ∈ rows) : r.id ≤ maxId rows := by
  induction rows with
  | nil => cases h
  | cons x xs ih =>
    rcases List.mem_cons.mp h with h | h
    · subst h
      simp only [maxId, List.foldr_cons]
      exact le_max_left _ _
    · refine le_trans (ih h) ?_
      simp only [maxId, List.foldr_cons]
      exact le_max_right _ _

lemma find?_append_right {p : Row → Bool} {l₁ l₂ : List Row}
    (h : ∀ x ∈ l₁, p x = false) :
    List.find? p (l₁ ++ l₂) = List.find? p l₂ := by
  induction l₁ with
  | nil => rfl
  | cons x xs ih =>
    have hx := h x (by simp)
    rw [List.cons_append, List.find?_cons, hx]
    exact ih fun y hy => h y (by simp [hy])

lemma find?_map_pres (i : Int) (f : Row → Row) (hf : ∀ r, (f r).id = r.id)
    (l : List Row) :
    List.find? (fun r => decide (r.id = i)) (l.map f) =
      Option.map f (List.find? (fun r => decide (r.id = i)) l) := by
  induction l with
  | nil => rfl
  | cons x xs ih =>
    by_cases hx : x.id = i
    · simp [List.map_cons, List.find?_cons, hf, hx]
    · simp [List.map_cons, List.find?_cons, hf, hx, ih]

lemma find?_filter_ne (i : Int) (l : List Row) :
    List.find? (fun r => decide (r.id = i))
      (l.filter (fun r => decide (r.id ≠ i))) = none := by
  induction l with
  | nil => rfl
  | cons x xs ih =>
    by_cases hx : x.id = i
    · simp [List.filter_cons, hx, ih]
    · simp [List.filter_cons, List.find?_cons, hx, ih]

/-- C1 (counterexample): on a store holding one row, the list operation
called with skip 0 and limit 0 returns the empty list and not all stored
rows after the first 0 rows, refuting the claim that limit 0 means
unbounded. -/
theorem limit_zero_not_unbounded_cex :
    get_all_books Health.ok 0 0 sampleDB = [] ∧
    sampleDB.rows.drop (Int.toNat 0) = [sampleRow] ∧
    ([] : List Row) ≠ [sampleRow] := by
  refine ⟨rfl, rfl, by decide⟩

/-- C1 (amended): for every store state and every skip, the list
operation with limit 0 returns the empty list (the store caps the result
at zero rows), including through the HTTP handler, where an omitted
limit defaults to 0; unbounded listing requires a negative limit, not 0. -/
theorem limit_zero_returns_empty (db : DB) (skip : Int) :
    get_all_books Health.ok skip 0 db = [] ∧
    get_books_api Health.ok skip get_books_default_limit db = [] ∧
    get_books_default_limit = 0 := by
  refine ⟨?_, ?_, rfl⟩ <;>
    simp [get_all_books, get_books_api, sqlLimitOffset, get_books_default_limit]

/-- C7: the list operation with a positive limit returns the rows in
insertion order after dropping the first skip of them and capping at
limit; on any store with 5 rows, skip 0 and limit 2 give exactly the
first 2 rows in insertion order, and skip 4 with limit 2 gives exactly
1 row. -/
theorem list_pagination :
    (∀ (db : DB) (skip limit : Int), 0 < limit →
       get_all_books Health.ok skip limit db =
         (db.rows.drop skip.toNat).take limit.toNat) ∧
    (∀ db : DB, db.rows.length = 5 →
       get_all_books Health.ok 0 2 db = db.rows.take 2 ∧
       (get_all_books Health.ok 0 2 db).length = 2 ∧
       (get_all_books Health.ok 4 2 db).length = 1) := by
  constructor
  · intro db skip limit hl
    have hnl : ¬ limit < 0 := by omega
    simp [get_all_books, sqlLimitOffset, hnl]
  · intro db h5
    refine ⟨?_, ?_, ?_⟩ <;>
      simp [get_all_books, sqlLimitOffset, h5]

/-- C10: for every negative limit the list operation returns all stored
rows after the first skip rows (the store treats a negative LIMIT as no
cap), both at the storage layer and through the HTTP handler, which does
not bound skip or limit; in particular limit -1 with skip 0 yields the
full listing. -/
theorem negative_limit_unbounded (limit : Int) (hneg : limit < 0)
    (db : DB) (skip : Int) :
    get_all_books Health.ok skip limit db = db.rows.drop skip.toNat ∧
    get_books_api Health.ok skip limit db = db.rows.drop skip.toNat ∧
    get_books_api Health.ok 0 (-1) db = db.rows := by
  refine ⟨?_, ?_, ?_⟩ <;>
    simp [get_all_books, get_books_api, sqlLimitOffset, hneg]

/-- C10 (witness): limit -1 on the one-row store returns the full row
list. -/
theorem negative_limit_unbounded_witness :
    get_books_api Health.ok 0 (-1) sampleDB = sampleDB.rows :=
  (negative_limit_unbounded (-1) (by decide) sampleDB 0).2.2

/-- C7 (witness): on a concrete store with 5 rows, skip 0 and limit 2
return the first two rows, skip 4 and limit 2 return one row, and a
generic positive limit obeys the drop-then-take shape. -/
theorem list_pagination_witness :
    get_all_books Health.ok 0 2 db5 = db5.rows.take 2 ∧
    (get_all_books Health.ok 4 2 db5).length = 1 ∧
    get_all_books Health.ok 1 3 db5 = (db5.rows.drop 1).take 3 := by
  refine ⟨(list_pagination.2 db5 (by decide)).1,
          (list_pagination.2 db5 (by decide)).2.2, ?_⟩
  simpa using list_pagination.1 db5 1 3 (by decide)

/-- C8: on connection-establishment failure or SQL-execution failure,
every storage operation returns its negative result with the store
unchanged — empty list for list, None for get, the sentinel -1 for
create, False for update and delete — and no exception escapes; the
sentinel -1 is distinct from any valid id, since a successful create
always returns an id of at least 1. -/
theorem storage_failure_negative_results (h : Health)
    (hf : h = Health.connFail ∨ h = Health.sqlFail)
    (db : DB) (skip limit book_id : Int) (b : BookCreate) (now : String) :
    get_all_books h skip limit db = [] ∧
    get_book_by_id h book_id db = none ∧
    create_book h b now db = (-1, db) ∧
    update_book h book_id b db = (false, db) ∧
    delete_book h book_id db = (false, db) ∧
    ((create_book Health.ok b now db).1 = -1 ∨
      1 ≤ (create_book Health.ok b now db).1) := by
  have hok : (create_book Health.ok b now db).1 = -1 ∨
      1 ≤ (create_book Health.ok b now db).1 := by
    cases ht : b.title with
    | none => left; simp [create_book, ht]
    | some t =>
      cases ha : b.author with
      | none => left; simp [create_book, ht, ha]
      | some a =>
        right
        simp only [create_book, ht, ha]
        have h0 := maxId_nonneg db.rows
        have h1 := le_max_right db.seq (maxId db.rows)
        omega
  rcases hf with hf | hf <;> subst hf <;>
    exact ⟨rfl, rfl, rfl, rfl, rfl, hok⟩

/-- C8 (witness): a get under connection failure on the one-row store
returns None. -/
theorem storage_failure_negative_results_witness :
    get_book_by_id Health.connFail 1 sampleDB = none :=
  (storage_failure_negative_results Health.connFail (Or.inl rfl) sampleDB 0 0 1
    ⟨none, none, none, 1, none, none, none⟩ "ts").2.1

/-- C5: a payload whose price is missing, or present but not strictly
positive, fails validation, and the create and update handlers then
return 422 without touching the store; a payload with price 1 passes
validation whatever the other (all optional) fields are. -/
theorem price_validation :
    (∀ p : RawPayload, p.price = none →
       validate_book_create p = none ∧
       ∀ (h : Health) (now : String) (db : DB) (book_id : Int),
         create_book_api h p now db = (Except.error 422, db) ∧
         update_book_api h book_id p db = (Except.error 422, db)) ∧
    (∀ (p : RawPayload) (v : Int), p.price = some v → v ≤ 0 →
       validate_book_create p = none ∧
       ∀ (h : Health) (now : String) (db : DB) (book_id : Int),
         create_book_api h p now db = (Except.error 422, db) ∧
         update_book_api h book_id p db = (Except.error 422, db)) ∧
    (∀ t a pub pd i c, validate_book_create ⟨t, a, pub, some 1, pd, i, c⟩ =
       some ⟨t, a, pub, 1, pd, i, c⟩) := by
  refine ⟨?_, ?_, ?_⟩
  · intro p hp
    have hv : validate_book_create p = none := by
      simp [validate_book_create, hp]
    exact ⟨hv, fun h now db book_id => by
      simp [create_book_api, update_book_api, hv]⟩
  · intro p v hp hv0
    have hnot : ¬ (0 < v) := by omega
    have hv : validate_book_create p = none := by
      simp [validate_book_create, hp, hnot]
    exact ⟨hv, fun h now db book_id => by
      simp [create_book_api, update_book_api, hv]⟩
  · intro t a pub pd i c
    simp [validate_book_create]

/-- C5 (witness): price 0 and a missing price are rejected, the create
handler rejects price 0 before storage, and price 1 with every other
field absent validates. -/
theorem price_validation_witness :
    validate_book_create ⟨none, none, none, some 0, none, none, none⟩ = none ∧
    validate_book_create ⟨none, none, none, none, none, none, none⟩ = none ∧
    create_book_api Health.ok ⟨none, none, none, some 0, none, none, none⟩ "ts" emptyDB =
      (Except.error 422, emptyDB) ∧
    validate_book_create ⟨none, none, none, some 1, none, none, none⟩ =
      some ⟨none, none, none, 1, none, none, none⟩ :=
  ⟨(price_validation.2.1 ⟨none, none, none, some 0, none, none, none⟩ 0 rfl
      (by decide)).1,
   (price_validation.1 ⟨none, none, none, none, none, none, none⟩ rfl).1,
   ((price_validation.2.1 ⟨none, none, none, some 0, none, none, none⟩ 0 rfl
      (by decide)).2 Health.ok "ts" emptyDB 1).1,
   price_validation.2.2 none none none none none none⟩

/-- C2: a successful create (title and author present) returns an id
other than -1, and an immediate get with that id yields a row whose
title, author, publisher, price, publish_date, isbn and cover_url equal
the input field values exactly. -/
theorem create_then_get_roundtrip (b : BookCreate) (t a : String) (now : String)
    (db : DB) (ht : b.title = some t) (ha : b.author = some a) :
    (create_book Health.ok b now db).1 ≠ -1 ∧
    get_book_by_id Health.ok (create_book Health.ok b now db).1
        (create_book Health.ok b now db).2 =
      some ⟨(create_book Health.ok b now db).1, t, a, b.publisher, b.price,
            b.publish_date, b.isbn, b.cover_url, now⟩ := by
  have h0 := maxId_nonneg db.rows
  have h1 := le_max_right db.seq (maxId db.rows)
  have hcb : create_book Health.ok b now db =
      (max db.seq (maxId db.rows) + 1,
       ⟨db.rows ++ [⟨max db.seq (maxId db.rows) + 1, t, a, b.publisher, b.price,
                     b.publish_date, b.isbn, b.cover_url, now⟩],
        max db.seq (maxId db.rows) + 1⟩) := by
    simp [create_book, ht, ha]
  rw [hcb]
  constructor
  · simp only [ne_eq]
    omega
  · simp only [get_book_by_id]
    rw [find?_append_right]
    · simp [List.find?_cons]
    · intro x hx
      have hle : x.id ≤ maxId db.rows := le_maxId hx
      have : ¬ x.id = max db.seq (maxId db.rows) + 1 := by omega
      simp [this]

/-- C2 (witness): creating a concrete book in the fresh store and
re-fetching it by the returned id yields exactly the input fields. -/
theorem create_then_get_roundtrip_witness :
    get_book_by_id Health.ok
        (create_book Health.ok ⟨some "A", some "B", none, 100, none, none, none⟩
          "ts" emptyDB).1
        (create_book Health.ok ⟨some "A", some "B", none, 100, none, none, none⟩
          "ts" emptyDB).2 =
      some ⟨(create_book Health.ok ⟨some "A", some "B", none, 100, none, none, none⟩
               "ts" emptyDB).1,
            "A", "B", none, 100, none, none, none, "ts"⟩ :=
  (create_then_get_roundtrip ⟨some "A", some "B", none, 100, none, none, none⟩
    "A" "B" "ts" emptyDB rfl rfl).2

/-- C3: a successful update of a stored id followed by a get of that id
returns exactly the seven new field values (title, author, publisher,
price, publish_date, isbn, cover_url), none of the old ones; only the
immutable created_at is carried over. -/
theorem update_then_get_new_fields (book_id : Int) (b : BookCreate) (t a : String)
    (db : DB) (ht : b.title = some t) (ha : b.author = some a)
    (hs : (update_book Health.ok book_id b db).1 = true) :
    ∃ created_at : String,
      get_book_by_id Health.ok book_id (update_book Health.ok book_id b db).2 =
        some ⟨book_id, t, a, b.publisher, b.price, b.publish_date, b.isbn,
              b.cover_url, created_at⟩ := by
  have hf : (db.rows.find? fun r => decide (r.id = book_id)).isSome := by
    by_contra hn
    have heq : update_book Health.ok book_id b db = (false, db) := by
      simp only [update_book]
      rw [if_neg hn]
    rw [heq] at hs
    exact absurd hs (by simp)
  obtain ⟨r₀, hr₀⟩ := Option.isSome_iff_exists.mp hf
  have hr₀id : r₀.id = book_id := by
    have := List.find?_some hr₀
    simpa using this
  have hupd : update_book Health.ok book_id b db =
      (true,
       ⟨db.rows.map (fun r =>
          if r.id = book_id then
            ⟨r.id, t, a, b.publisher, b.price, b.publish_date, b.isbn, b.cover_url,
             r.created_at⟩
          else r),
        db.seq⟩) := by
    simp only [update_book, ht, ha]
    rw [if_pos hf]
  refine ⟨r₀.created_at, ?_⟩
  rw [hupd]
  simp only [get_book_by_id]
  rw [find?_map_pres book_id _ (fun r => by by_cases h : r.id = book_id <;> simp [h])]
  rw [hr₀]
  simp [hr₀id]

/-- C3 (witness): updating the one stored row with all-new field values
and re-fetching it returns exactly the new values. -/
theorem update_then_get_new_fields_witness :
    ∃ created_at : String,
      get_book_by_id Health.ok 1
          (update_book Health.ok 1
            ⟨some "X", some "Y", some "P", 7, some "D", some "I", some "C"⟩
            sampleDB).2 =
        some ⟨1, "X", "Y", some "P", 7, some "D", some "I", some "C", created_at⟩ :=
  update_then_get_new_fields 1
    ⟨some "X", some "Y", some "P", 7, some "D", some "I", some "C"⟩ "X" "Y"
    sampleDB rfl rfl (by decide)

/-- C4: after a successful delete of a stored id, a get of that id
returns None, and a second delete of the same id returns False and
leaves the store unchanged. -/
theorem delete_then_get_absent (book_id : Int) (db : DB)
    (hs : (delete_book Health.ok book_id db).1 = true) :
    get_book_by_id Health.ok book_id (delete_book Health.ok book_id db).2 = none ∧
    delete_book Health.ok book_id (delete_book Health.ok book_id db).2 =
      (false, (delete_book Health.ok book_id db).2) := by
  have hf : (db.rows.find? fun r => decide (r.id = book_id)).isSome := by
    by_contra hn
    have heq : delete_book Health.ok book_id db = (false, db) := by
      simp only [delete_book]
      rw [if_neg hn]
    rw [heq] at hs
    exact absurd hs (by simp)
  have hdel : delete_book Health.ok book_id db =
      (true, ⟨db.rows.filter (fun r => decide (r.id ≠ book_id)), db.seq⟩) := by
    simp only [delete_book]
    rw [if_pos hf]
  rw [hdel]
  have hnone := find?_filter_ne book_id db.rows
  constructor
  · simp only [get_book_by_id]
    exact hnone
  · simp only [delete_book]
    rw [if_neg]
    simp [hnone]

/-- C4 (witness): deleting the one stored row makes a get return None and
a second delete return False. -/
theorem delete_then_get_absent_witness :
    get_book_by_id Health.ok 1 (delete_book Health.ok 1 sampleDB).2 = none ∧
    delete_book Health.ok 1 (delete_book Health.ok 1 sampleDB).2 =
      (false, (delete_book Health.ok 1 sampleDB).2) :=
  delete_then_get_absent 1 sampleDB (by decide)

/-- Invariant of the store: every rowid present in the table is bounded
by the AUTOINCREMENT sequence value. -/
def dbInv (db : DB) : Prop := ∀ r ∈ db.rows, r.id ≤ db.seq

lemma update_book_inv (h : Health) (i : Int) (b : BookCreate) (db : DB)
    (hinv : dbInv db) :
    dbInv (update_book h i b db).2 ∧ (update_book h i b db).2.seq = db.seq := by
  cases h with
  | connFail => exact ⟨hinv, rfl⟩
  | sqlFail => exact ⟨hinv, rfl⟩
  | ok =>
    simp only [update_book]
    by_cases hf : (db.rows.find? fun r => decide (r.id = i)).isSome
    · rw [if_pos hf]
      cases ht : b.title with
      | none => exact ⟨hinv, rfl⟩
      | some t =>
        cases ha : b.author with
        | none => exact ⟨hinv, rfl⟩
        | some a =>
          refine ⟨?_, rfl⟩
          intro r hr
          obtain ⟨r₀, hr₀, hfr⟩ := List.mem_map.mp hr
          have hle := hinv r₀ hr₀
          subst hfr
          by_cases hid : r₀.id = i <;> simp [hid] <;> omega
    · rw [if_neg hf]
      exact ⟨hinv, rfl⟩

lemma delete_book_inv (h : Health) (i : Int) (db : DB) (hinv : dbInv db) :
    dbInv (delete_book h i db).2 ∧ (delete_book h i db).2.seq = db.seq := by
  cases h with
  | connFail => exact ⟨hinv, rfl⟩
  | sqlFail => exact ⟨hinv, rfl⟩
  | ok =>
    simp only [delete_book]
    by_cases hf : (db.rows.find? fun r => decide (r.id = i)).isSome
    · rw [if_pos hf]
      refine ⟨?_, rfl⟩
      intro r hr
      exact hinv r (List.mem_of_mem_filter hr)
    · rw [if_neg hf]
      exact ⟨hinv, rfl⟩

lemma runOps_ids_spec (ops : List Op) : ∀ db : DB, dbInv db →
    dbInv (runOps db ops).1 ∧
    List.Pairwise (fun i j : Int => i < j) (runOps db ops).2 ∧
    ∀ i ∈ (runOps db ops).2, db.seq < i := by
  induction ops with
  | nil =>
    intro db hinv
    exact ⟨hinv, by simp [runOps], by simp [runOps]⟩
  | cons op ops ih =>
    intro db hinv
    cases op with
    | listOp h s l => simpa [runOps] using ih db hinv
    | getOp h i => simpa [runOps] using ih db hinv
    | updateOp h i b =>
      obtain ⟨hinv2, hseq⟩ := update_book_inv h i b db hinv
      obtain ⟨ih1, ih2, ih3⟩ := ih _ hinv2
      refine ⟨ih1, ih2, ?_⟩
      intro j hj
      have := ih3 j hj
      rw [hseq] at this
      exact this
    | deleteOp h i =>
      obtain ⟨hinv2, hseq⟩ := delete_book_inv h i db hinv
      obtain ⟨ih1, ih2, ih3⟩ := ih _ hinv2
      refine ⟨ih1, ih2, ?_⟩
      intro j hj
      have := ih3 j hj
      rw [hseq] at this
      exact this
    | createOp h b now =>
      cases h with
      | connFail => simpa [runOps, create_book] using ih db hinv
      | sqlFail => simpa [runOps, create_book] using ih db hinv
      | ok =>
        cases ht : b.title with
        | none => simpa [runOps, create_book, ht] using ih db hinv
        | some t =>
          cases ha : b.author with
          | none => simpa [runOps, create_book, ht, ha] using ih db hinv
          | some a =>
            have h0 := maxId_nonneg db.rows
            have h1 := le_max_right db.seq (maxId db.rows)
            have h2 := le_max_left db.seq (maxId db.rows)
            have hne : ¬ (max db.seq (maxId db.rows) + 1 = -1) := by omega
            have hinv2 : dbInv
                ⟨db.rows ++
                   [⟨max db.seq (maxId db.rows) + 1, t, a, b.publisher, b.price,
                     b.publish_date, b.isbn, b.cover_url, now⟩],
                 max db.seq (maxId db.rows) + 1⟩ := by
              intro r hr
              rcases List.mem_append.mp hr with hr | hr
              · have := hinv r hr
                simp only
                omega
              · simp only [List.mem_singleton] at hr
                subst hr
                simp only
                omega
            obtain ⟨ih1, ih2, ih3⟩ := ih _ hinv2
            have hrun : runOps db (Op.createOp Health.ok b now :: ops) =
                ((runOps
                    ⟨db.rows ++
                       [⟨max db.seq (maxId db.rows) + 1, t, a, b.publisher, b.price,
                         b.publish_date, b.isbn, b.cover_url, now⟩],
                     max db.seq (maxId db.rows) + 1⟩ ops).1,
                 (max db.seq (maxId db.rows) + 1) ::
                   (runOps
                     ⟨db.rows ++
                        [⟨max db.seq (maxId db.rows) + 1, t, a, b.publisher, b.price,
                          b.publish_date, b.isbn, b.cover_url, now⟩],
                      max db.seq (maxId db.rows) + 1⟩ ops).2) := by
              simp only [runOps, create_book, ht, ha]
              rw [if_neg hne]
            rw [hrun]
            refine ⟨ih1, ?_, ?_⟩
            · refine List.pairwise_cons.mpr ⟨?_, ih2⟩
              intro j hj
              exact ih3 j hj
            · intro j hj
              rcases List.mem_cons.mp hj with hj | hj
              · subst hj
                omega
              · have := ih3 j hj
                simp only at this
                omega

/-- C6: starting from a fresh store, over any sequence of list, get,
create, update and delete operations (each with any call health), the
ids returned by the successful creates are pairwise strictly increasing
in order of issue: each is strictly greater than every prior one, hence
unique across the lifetime of the store and never reused after the row
carrying it is deleted. -/
theorem create_ids_strictly_increasing (ops : List Op) :
    List.Pairwise (fun i j : Int => i < j) (runOps emptyDB ops).2 :=
  (runOps_ids_spec ops emptyDB (by intro r hr; simp [emptyDB] at hr)).2.1

/-- C9: for a stored id, an update whose payload carries a None title or
a None author (which validation accepts as long as price is positive)
fails on the NOT NULL storage constraint and returns False, so the PUT
handler responds 404 Book not found even though the id exists, and the
store is left unchanged. -/
theorem update_null_field_404 (book_id : Int) (b : BookCreate) (db : DB)
    (hex : (get_book_by_id Health.ok book_id db).isSome = true)
    (hnull : b.title = none ∨ b.author = none)
    (hp : 0 < b.price) :
    validate_book_create (rawOf b) = some b ∧
    update_book Health.ok book_id b db = (false, db) ∧
    update_book_api Health.ok book_id (rawOf b) db = (Except.error 404, db) := by
  have hval : validate_book_create (rawOf b) = some b := by
    simp [validate_book_create, rawOf, hp]
  have hf : (db.rows.find? fun r => decide (r.id = book_id)).isSome = true := by
    simpa [get_book_by_id] using hex
  have hupd : update_book Health.ok book_id b db = (false, db) := by
    rcases hnull with hn | hn
    · cases hau : b.author <;> simp [update_book, hf, hn, hau]
    · cases hti : b.title <;> simp [update_book, hf, hn, hti]
  refine ⟨hval, hupd, ?_⟩
  simp [update_book_api, hval, hupd]

/-- C9 (witness): on the one-row store, a payload with no title and
positive price makes the update fail, the handler answer 404, and the
store stay unchanged, while validation accepted the payload. -/
theorem update_null_field_404_witness :
    validate_book_create
        (rawOf ⟨none, some "Y", none, 5, none, none, none⟩) =
      some ⟨none, some "Y", none, 5, none, none, none⟩ ∧
    update_book Health.ok 1 ⟨none, some "Y", none, 5, none, none, none⟩ sampleDB =
      (false, sampleDB) ∧
    update_book_api Health.ok 1
        (rawOf ⟨none, some "Y", none, 5, none, none, none⟩) sampleDB =
      (Except.error 404, sampleDB) :=
  update_null_field_404 1 ⟨none, some "Y", none, 5, none, none, none⟩ sampleDB
    (by decide) (Or.inl rfl) (by decide)
